import Mathlib

/-!
Shallow embedding of `cargo-open` (`src/main.rs`): a small pipeline that
queries workspace metadata, finds a named package, derives its manifest's
parent directory, resolves an editor from environment variables, and spawns
the editor on that directory.

External effects (the `cargo metadata` subprocess, `std::env::var`, process
spawning) are modelled by a `World` record of oracles, and each effectful
step also returns the list of `Event`s it performed, so ordering/absence of
effects is provable.
-/

namespace CargoOpen

/-- A filesystem path, modelled structurally as Rust's `Path::components`
view: whether the path is absolute, plus its ordered component list
(components may include `.` and `..`, which Rust keeps as components here).
`⟨false, []⟩` is the empty path `""`; `⟨true, []⟩` is the bare root `/`. -/
structure RPath where
  absolute : Bool
  components : List String
deriving DecidableEq

/-- Rust `Path::parent` / `Utf8Path::parent`: the path without its final
component; `none` exactly when there is no component at all (the empty
path, or a path that is only a root). In particular a bare filename such
as `Cargo.toml` has parent `some ""` (the empty path), not `none`. -/
def RPath.parent (p : RPath) : Option RPath :=
  match p.components with
  | [] => none
  | _ :: _ => some ⟨p.absolute, p.components.dropLast⟩

/-- The fields of `cargo_metadata::Package` this program consumes. -/
structure Package where
  name : String
  manifest_path : RPath
deriving DecidableEq

/-- The field of `cargo_metadata::Metadata` this program consumes. -/
structure Metadata where
  packages : List Package
deriving DecidableEq

/-- The two `clap::error::ErrorKind`s the program constructs. -/
inductive ErrorKind
  | io
  | invalidValue
deriving DecidableEq

/-- `clap::Error::raw(kind, message)`. -/
structure CError where
  kind : ErrorKind
  msg : String
deriving DecidableEq

/-- A value stored in an environment variable: either valid Unicode or not
(`std::env::var` distinguishes exactly these two cases). -/
inductive EnvValue
  | str (s : String)
  | nonUnicode
deriving DecidableEq

/-- `std::env::VarError`. -/
inductive VarError
  | notPresent
  | notUnicode
deriving DecidableEq

/-- Rust `std::process::ExitStatus`; only the exit code is observable
(`none` models termination by signal). -/
structure ExitStatus where
  code : Option Int
deriving DecidableEq

/-- The observable external effects of one invocation. -/
inductive Event
  | queryMetadata (manifest_path : Option RPath)
  | readEnv (name : String)
  | spawn (program : String) (args : List RPath)
deriving DecidableEq

/-- The external world: the process environment, the `cargo metadata`
subprocess, and the OS spawn primitive (`Command::status`, which also
waits; its error is an `io::Error` message, its success an exit status). -/
structure World where
  env : String → Option EnvValue
  runMetadata : Option RPath → Except String Metadata
  spawn : String → List RPath → Except String ExitStatus

/-- `std::env::var(name)`. -/
def env_var (w : World) (name : String) : Except VarError String :=
  match w.env name with
  | some (EnvValue.str s) => .ok s
  | some EnvValue.nonUnicode => .error .notUnicode
  | none => .error .notPresent

/-- `get_metadata`: build a `MetadataCommand`, set `manifest_path` only when
an override is given, `exec()`, and map any error to
`Error::raw(Io, format!("Metadata error: {}", e))`. -/
def get_metadata (w : World) (manifest_path : Option RPath) :
    Except CError Metadata × List Event :=
  ((w.runMetadata manifest_path).mapError
      (fun e => ⟨.io, "Metadata error: " ++ e⟩),
    [Event.queryMetadata manifest_path])

/-- `get_package`: `metadata.packages.iter().find(|p| p.name == package_name)`,
else `Error::raw(InvalidValue, format!("Package not found: {}", name))`. -/
def get_package (package_name : String) (metadata : Metadata) :
    Except CError Package :=
  match metadata.packages.find? (fun p => p.name == package_name) with
  | some p => .ok p
  | none => .error ⟨.invalidValue, "Package not found: " ++ package_name⟩

/-- `get_package_path`: `package.manifest_path.parent()`, else
`Error::raw(Io, "Path error")`. -/
def get_package_path (package : Package) : Except CError RPath :=
  match package.manifest_path.parent with
  | some d => .ok d
  | none => .error ⟨.io, "Path error"⟩

/-- `get_editor_path`: `var("CARGO_EDITOR").or_else(|_| var("VISUAL"))
.or_else(|_| var("EDITOR"))`, else `Error::raw(Io, "Cannot resolve editor")`.
`or_else` closures run only on error, so later variables are read only when
every earlier one failed; the events record the reads actually performed.
(`.map(PathBuf::from)` wraps the string unchanged.) -/
def get_editor_path (w : World) : Except CError String × List Event :=
  match env_var w "CARGO_EDITOR" with
  | .ok s => (.ok s, [Event.readEnv "CARGO_EDITOR"])
  | .error _ =>
    match env_var w "VISUAL" with
    | .ok s => (.ok s, [Event.readEnv "CARGO_EDITOR", Event.readEnv "VISUAL"])
    | .error _ =>
      match env_var w "EDITOR" with
      | .ok s =>
        (.ok s,
          [Event.readEnv "CARGO_EDITOR", Event.readEnv "VISUAL",
            Event.readEnv "EDITOR"])
      | .error _ =>
        (.error ⟨.io, "Cannot resolve editor"⟩,
          [Event.readEnv "CARGO_EDITOR", Event.readEnv "VISUAL",
            Event.readEnv "EDITOR"])

/-- `run_editor`: `Command::new(editor_path).arg(package_path).status()`,
mapping a spawn failure to `Error::raw(Io, e)`. -/
def run_editor (w : World) (editor_path : String) (package_path : RPath) :
    Except CError ExitStatus × List Event :=
  ((w.spawn editor_path [package_path]).mapError (fun e => ⟨.io, e⟩),
    [Event.spawn editor_path [package_path]])

/-- The parsed CLI arguments (`Args`). -/
structure Args where
  package_name : String
  manifest_path : Option RPath

/-- `try_main`: the linear pipeline, with `?` propagating the first error.
The editor's exit status returned by `run_editor` is discarded. -/
def try_main (w : World) (args : Args) : Except CError Unit × List Event :=
  let mR := get_metadata w args.manifest_path
  match mR.1 with
  | .error e => (.error e, mR.2)
  | .ok metadata =>
    match get_package args.package_name metadata with
    | .error e => (.error e, mR.2)
    | .ok package =>
      match get_package_path package with
      | .error e => (.error e, mR.2)
      | .ok package_path =>
        let eR := get_editor_path w
        match eR.1 with
        | .error e => (.error e, mR.2 ++ eR.2)
        | .ok editor_path =>
          let rR := run_editor w editor_path package_path
          match rR.1 with
          | .error e => (.error e, mR.2 ++ eR.2 ++ rR.2)
          | .ok _ => (.ok (), mR.2 ++ eR.2 ++ rR.2)

/-- `main`: exit code 0 when `try_main` succeeds; on error, clap's
`Error::exit` prints the message and exits with code 2. -/
def main_exit_code (w : World) (args : Args) : Nat :=
  match (try_main w args).1 with
  | .ok _ => 0
  | .error _ => 2

/-! ## Concrete sample data (for closed instantiations) -/

/-- An environment with only `EDITOR` set, to `vim`. -/
def envOnlyEditorVim : String → Option EnvValue :=
  fun n => if n = "EDITOR" then some (EnvValue.str "vim") else none

/-- An environment with `CARGO_EDITOR` set to the empty string and
`VISUAL` set to `vi`. -/
def envEmptyCargoEditor : String → Option EnvValue :=
  fun n =>
    if n = "CARGO_EDITOR" then some (EnvValue.str "")
    else if n = "VISUAL" then some (EnvValue.str "vi") else none

/-- An environment where every variable holds a non-Unicode value. -/
def envAllNonUnicode : String → Option EnvValue :=
  fun _ => some EnvValue.nonUnicode

/-- An empty environment. -/
def envUnset : String → Option EnvValue := fun _ => none

/-- A sample package. -/
def pkgClap : Package :=
  ⟨"clap", ⟨true, ["home", "u", "clap-4.0", "Cargo.toml"]⟩⟩

/-- A sample workspace containing only `pkgClap`. -/
def mdClap : Metadata := ⟨[pkgClap]⟩

/-- A world whose metadata query yields `mdClap`, whose environment is
`envOnlyEditorVim`, and whose spawn succeeds with exit status 1 (nonzero). -/
def wVim : World :=
  ⟨envOnlyEditorVim, fun _ => .ok mdClap, fun _ _ => .ok ⟨some 1⟩⟩

/-- A world whose environment is `envEmptyCargoEditor`. -/
def wEmptyCargo : World :=
  ⟨envEmptyCargoEditor, fun _ => .ok mdClap, fun _ _ => .ok ⟨some 0⟩⟩

/-- A world whose environment is `envAllNonUnicode`. -/
def wNonUnicode : World :=
  ⟨envAllNonUnicode, fun _ => .error "m", fun _ _ => .error "s"⟩

/-- A world whose environment is empty. -/
def wUnset : World :=
  ⟨envUnset, fun _ => .error "m", fun _ _ => .error "s"⟩

/-! ## Helper lemmas -/

/-- `List.find?` returns `some q` exactly when the list splits as
`l1 ++ q :: l2` with `q` satisfying the predicate and nothing in `l1`
satisfying it: the first match in iteration order. Stated for the name
predicate used by `get_package`. -/
theorem find_name_eq_some_iff (l : List Package) (n : String) (q : Package) :
    l.find? (fun p => p.name == n) = some q ↔
      ∃ l1 l2, l = l1 ++ q :: l2 ∧ q.name = n ∧ ∀ r ∈ l1, r.name ≠ n := by
  induction l with
  | nil => simp
  | cons a t ih =>
    by_cases ha : a.name = n
    · rw [List.find?_cons_of_pos _ (by simpa using ha)]
      constructor
      · rintro h
        injection h with h
        exact ⟨[], t, by rw [h]; rfl, by rw [← h]; exact ha, by simp⟩
      · rintro ⟨l1, l2, heq, hq, hnone⟩
        cases l1 with
        | nil =>
          injection heq with h1 _
          rw [h1]
        | cons b t1 =>
          injection heq with h1 _
          exact absurd (h1 ▸ ha) (hnone b (by simp))
    · rw [List.find?_cons_of_neg _ (by simpa using ha)]
      rw [ih]
      constructor
      · rintro ⟨l1, l2, heq, hq, hnone⟩
        exact ⟨a :: l1, l2, by rw [heq]; rfl, hq, by
          intro r hr
          rcases List.mem_cons.mp hr with rfl | hr
          · exact ha
          · exact hnone r hr⟩
      · rintro ⟨l1, l2, heq, hq, hnone⟩
        cases l1 with
        | nil =>
          injection heq with h1 _
          exact absurd (h1 ▸ hq) ha
        | cons b t1 =>
          injection heq with h1 h2
          exact ⟨t1, l2, h2, hq, fun r hr => hnone r (by simp [hr])⟩

/-- `get_package` succeeds with `q` exactly when `find?` finds `q`. -/
theorem get_package_eq_ok_iff_find (n : String) (md : Metadata) (q : Package) :
    get_package n md = .ok q ↔
      md.packages.find? (fun p => p.name == n) = some q := by
  unfold get_package
  rcases hf : md.packages.find? (fun p => p.name == n) with _ | p <;> simp [hf]

/-- `String.append` is left-cancellative. -/
theorem string_append_cancel_left {a b c : String} (h : a ++ b = a ++ c) :
    b = c := by
  apply String.ext
  have h2 : a.data ++ b.data = a.data ++ c.data := by
    rw [← String.data_append, ← String.data_append, h]
  exact List.append_cancel_left h2

/-! ## Claims -/

/-- C2: `get_package` returns the first package in the metadata's package
list whose name equals the requested name under exact (case-sensitive)
string equality; with duplicate names, the first match in iteration order
wins. -/
theorem get_package_first_exact_match (package_name : String) (md : Metadata)
    (q : Package) :
    get_package package_name md = .ok q ↔
      ∃ l1 l2, md.packages = l1 ++ q :: l2 ∧ q.name = package_name ∧
        ∀ r ∈ l1, r.name ≠ package_name := by
  rw [get_package_eq_ok_iff_find, find_name_eq_some_iff]

/-- C1: when the metadata contains a package named `p`, `get_package`
succeeds with such a package, and `get_package_path` on it returns exactly
the parent directory of that package's manifest path (and only that). -/
theorem resolve_package_to_manifest_parent (md : Metadata)
    (package_name : String) (h : ∃ p ∈ md.packages, p.name = package_name) :
    ∃ q, get_package package_name md = .ok q ∧ q ∈ md.packages ∧
      q.name = package_name ∧
      ∀ d, get_package_path q = .ok d ↔ q.manifest_path.parent = some d := by
  obtain ⟨p, hp, hn⟩ := h
  have hsome : (md.packages.find? (fun r => r.name == package_name)).isSome := by
    rw [List.find?_isSome]
    exact ⟨p, hp, by simpa using hn⟩
  obtain ⟨q, hq⟩ := Option.isSome_iff_exists.mp hsome
  refine ⟨q, (get_package_eq_ok_iff_find _ _ _).mpr hq,
    List.mem_of_find?_eq_some hq, by simpa using List.find?_some hq, ?_⟩
  intro d
  unfold get_package_path
  rcases hpar : q.manifest_path.parent with _ | d' <;> simp [hpar]

/-- C1 witness: a concrete workspace with one package `clap`; the pipeline
resolves `clap` to its manifest's parent directory. -/
theorem resolve_package_to_manifest_parent_witness :
    ∃ q, get_package "clap"
        ⟨[⟨"clap", ⟨true, ["home", "u", "clap-4.0", "Cargo.toml"]⟩⟩]⟩ =
        .ok q ∧
      q ∈ (Metadata.mk
        [⟨"clap", ⟨true, ["home", "u", "clap-4.0", "Cargo.toml"]⟩⟩]).packages ∧
      q.name = "clap" ∧
      ∀ d, get_package_path q = .ok d ↔ q.manifest_path.parent = some d :=
  resolve_package_to_manifest_parent
    ⟨[⟨"clap", ⟨true, ["home", "u", "clap-4.0", "Cargo.toml"]⟩⟩]⟩ "clap"
    ⟨⟨"clap", ⟨true, ["home", "u", "clap-4.0", "Cargo.toml"]⟩⟩, by simp, rfl⟩

/-- C5 counterexample: a package whose manifest path is the bare filename
`Cargo.toml` (no directory component). `get_package_path` does NOT fail:
Rust's `Path::parent` on a bare filename is `Some("")`, so the deriver
returns the empty (current-directory) path `⟨false, []⟩`. -/
theorem bare_filename_manifest_yields_empty_path :
    get_package_path ⟨"demo", ⟨false, ["Cargo.toml"]⟩⟩ =
      .ok ⟨false, []⟩ := rfl

/-- C5 (amended): `get_package_path` fails with the `"Path error"`
condition exactly when the manifest path has no component at all (the empty
path or a bare root); otherwise it returns the path without its final
component. In particular a bare filename yields the empty path, not an
error. -/
theorem get_package_path_error_iff_no_components (package : Package) :
    (get_package_path package = .error ⟨.io, "Path error"⟩ ↔
        package.manifest_path.components = []) ∧
      ∀ d, get_package_path package = .ok d ↔
        package.manifest_path.parent = some d := by
  unfold get_package_path RPath.parent
  rcases hc : package.manifest_path.components with _ | ⟨a, t⟩ <;>
    simp [RPath.parent, hc]

/-- C3: for any assignment of string values to the three environment
variables `CARGO_EDITOR`, `VISUAL`, `EDITOR` (each set to a string or
unset), `get_editor_path` returns the value of the first one set in that
priority order, and fails with the `"Cannot resolve editor"` condition
exactly when none of the three is set. -/
theorem get_editor_path_priority (w : World) (ec ev ee : Option String)
    (hc : w.env "CARGO_EDITOR" = Option.map EnvValue.str ec)
    (hv : w.env "VISUAL" = Option.map EnvValue.str ev)
    (he : w.env "EDITOR" = Option.map EnvValue.str ee) :
    (get_editor_path w).1 =
      match ec with
      | some s => .ok s
      | none =>
        match ev with
        | some s => .ok s
        | none =>
          match ee with
          | some s => .ok s
          | none => .error ⟨.io, "Cannot resolve editor"⟩ := by
  rcases ec with _ | s <;> rcases ev with _ | s' <;> rcases ee with _ | s'' <;>
    simp [get_editor_path, env_var, hc, hv, he]

/-- C3 witness: with only `EDITOR=vim` set, the resolver returns `vim`. -/
theorem get_editor_path_priority_witness :
    (get_editor_path wVim).1 = .ok "vim" :=
  get_editor_path_priority wVim none none (some "vim") rfl rfl rfl

/-- C6: if `CARGO_EDITOR` is set to the empty string, the resolver returns
the empty string and does not fall through to the next variable. -/
theorem empty_tool_var_is_configured (w : World)
    (h : w.env "CARGO_EDITOR" = some (EnvValue.str "")) :
    (get_editor_path w).1 = .ok "" := by
  unfold get_editor_path env_var
  rw [h]

/-- C6 witness: `CARGO_EDITOR=""` with `VISUAL=vi` set returns `""`,
not `vi`. -/
theorem empty_tool_var_is_configured_witness :
    (get_editor_path wEmptyCargo).1 = .ok "" :=
  empty_tool_var_is_configured wEmptyCargo rfl

/-- C10: a variable set to a non-Unicode value is treated exactly like an
unset one (replacing every non-Unicode value by "unset" leaves the
resolver's result unchanged, so the resolver falls through past it), and
when all three variables hold only non-Unicode values the resolver fails
with the `"Cannot resolve editor"` condition. -/
theorem non_unicode_env_treated_as_unset (w w' : World)
    (h : ∀ n, w'.env n =
      match w.env n with
      | some EnvValue.nonUnicode => none
      | v => v) :
    (get_editor_path w').1 = (get_editor_path w).1 ∧
      (w.env "CARGO_EDITOR" = some EnvValue.nonUnicode →
        w.env "VISUAL" = some EnvValue.nonUnicode →
        w.env "EDITOR" = some EnvValue.nonUnicode →
        (get_editor_path w).1 = .error ⟨.io, "Cannot resolve editor"⟩) := by
  have hc := h "CARGO_EDITOR"
  have hv := h "VISUAL"
  have he := h "EDITOR"
  constructor
  · rcases hC : w.env "CARGO_EDITOR" with _ | (sC | _) <;>
      rcases hV : w.env "VISUAL" with _ | (sV | _) <;>
        rcases hE : w.env "EDITOR" with _ | (sE | _) <;>
          simp_all [get_editor_path, env_var]
  · intro h1 h2 h3
    simp [get_editor_path, env_var, h1, h2, h3]

/-- C10 witness: all three variables non-Unicode behaves like all three
unset, and fails with the cannot-resolve-editor condition. -/
theorem non_unicode_env_treated_as_unset_witness :
    (get_editor_path wUnset).1 = (get_editor_path wNonUnicode).1 ∧
      (wNonUnicode.env "CARGO_EDITOR" = some EnvValue.nonUnicode →
        wNonUnicode.env "VISUAL" = some EnvValue.nonUnicode →
        wNonUnicode.env "EDITOR" = some EnvValue.nonUnicode →
        (get_editor_path wNonUnicode).1 =
          .error ⟨.io, "Cannot resolve editor"⟩) :=
  non_unicode_env_treated_as_unset wNonUnicode wUnset (fun _ => rfl)

/-- C4: when the metadata query succeeds but no package has the requested
name, `try_main` fails with the `"Package not found"` condition naming the
requested identifier, and the trace holds only the metadata query: no
environment variable is read and no process is spawned. -/
theorem package_not_found_stops_pipeline (w : World) (args : Args)
    (md : Metadata) (hmd : w.runMetadata args.manifest_path = .ok md)
    (habs : ∀ p ∈ md.packages, p.name ≠ args.package_name) :
    try_main w args =
        (.error ⟨.invalidValue, "Package not found: " ++ args.package_name⟩,
          [Event.queryMetadata args.manifest_path]) ∧
      ∀ e ∈ (try_main w args).2,
        (∀ n, e ≠ Event.readEnv n) ∧ ∀ prog as, e ≠ Event.spawn prog as := by
  have hfind :
      md.packages.find? (fun p => p.name == args.package_name) = none := by
    rw [List.find?_eq_none]
    intro p hp
    simpa using habs p hp
  have hpkg : get_package args.package_name md =
      .error ⟨.invalidValue, "Package not found: " ++ args.package_name⟩ := by
    unfold get_package
    rw [hfind]
  have hmain : try_main w args =
      (.error ⟨.invalidValue, "Package not found: " ++ args.package_name⟩,
        [Event.queryMetadata args.manifest_path]) := by
    unfold try_main get_metadata
    simp [hmd, hpkg, Except.mapError]
  refine ⟨hmain, ?_⟩
  rw [hmain]
  intro e he
  simp only [List.mem_singleton] at he
  subst he
  exact ⟨fun n => by simp, fun prog as => by simp⟩

/-- C4 witness: asking for `missing` in a workspace holding only `clap`
fails with the package-not-found condition and performs only the metadata
query. -/
theorem package_not_found_stops_pipeline_witness :
    try_main wVim ⟨"missing", none⟩ =
        (.error ⟨.invalidValue, "Package not found: " ++ "missing"⟩,
          [Event.queryMetadata none]) ∧
      ∀ e ∈ (try_main wVim ⟨"missing", none⟩).2,
        (∀ n, e ≠ Event.readEnv n) ∧ ∀ prog as, e ≠ Event.spawn prog as :=
  package_not_found_stops_pipeline wVim ⟨"missing", none⟩ mdClap rfl
    (by decide)

/-- C7: when every step succeeds and the spawn returns any exit status at
all, `try_main` succeeds and the process exits 0 — the editor's own exit
status is neither inspected nor propagated. -/
theorem editor_exit_status_not_propagated (w : World) (args : Args)
    (md : Metadata) (package : Package) (package_path : RPath)
    (editor_path : String) (status : ExitStatus)
    (hmd : w.runMetadata args.manifest_path = .ok md)
    (hpkg : get_package args.package_name md = .ok package)
    (hpath : get_package_path package = .ok package_path)
    (hed : (get_editor_path w).1 = .ok editor_path)
    (hspawn : w.spawn editor_path [package_path] = .ok status) :
    (try_main w args).1 = .ok () ∧ main_exit_code w args = 0 := by
  have h1 : (try_main w args).1 = .ok () := by
    unfold try_main get_metadata run_editor
    simp [hmd, hpkg, hpath, hed, hspawn, Except.mapError]
  refine ⟨h1, ?_⟩
  unfold main_exit_code
  rw [h1]

/-- C7 witness: a full success where the editor exits with status 1; the
invocation still exits 0. -/
theorem editor_exit_status_not_propagated_witness :
    (try_main wVim ⟨"clap", none⟩).1 = .ok () ∧
      main_exit_code wVim ⟨"clap", none⟩ = 0 :=
  editor_exit_status_not_propagated wVim ⟨"clap", none⟩ mdClap pkgClap
    ⟨true, ["home", "u", "clap-4.0"]⟩ "vim" ⟨some 1⟩ rfl rfl rfl rfl rfl

/-- C8: `run_editor` performs exactly one spawn, of the editor command with
the single argument `package_path`; it succeeds with the spawn's exit
status and returns an I/O error exactly when the spawn fails. -/
theorem run_editor_spawns_single_arg (w : World) (editor_path : String)
    (package_path : RPath) :
    (run_editor w editor_path package_path).2 =
        [Event.spawn editor_path [package_path]] ∧
      (∀ s, (run_editor w editor_path package_path).1 = .ok s ↔
        w.spawn editor_path [package_path] = .ok s) ∧
      ∀ msg, ((run_editor w editor_path package_path).1 = .error ⟨.io, msg⟩ ↔
        w.spawn editor_path [package_path] = .error msg) := by
  refine ⟨rfl, ?_, ?_⟩ <;> intro x <;>
    rcases hs : w.spawn editor_path [package_path] with e | s' <;>
      simp [run_editor, hs, Except.mapError]

/-- C9: `get_metadata` performs exactly one metadata query, passing through
the manifest-path override unchanged (`none` when absent); it succeeds with
exactly the provider's metadata, and surfaces a provider error `msg` as
exactly the fatal condition `"Metadata error: " ++ msg`. -/
theorem get_metadata_passthrough (w : World) (mp : Option RPath) :
    (get_metadata w mp).2 = [Event.queryMetadata mp] ∧
      (∀ md, (get_metadata w mp).1 = .ok md ↔ w.runMetadata mp = .ok md) ∧
      ∀ msg, ((get_metadata w mp).1 =
          .error ⟨.io, "Metadata error: " ++ msg⟩ ↔
        w.runMetadata mp = .error msg) := by
  refine ⟨rfl, ?_, ?_⟩
  · intro md
    rcases hs : w.runMetadata mp with e | md' <;>
      simp [get_metadata, hs, Except.mapError]
  · intro msg
    rcases hs : w.runMetadata mp with e | md'
    · have hL : (get_metadata w mp).1 =
          .error ⟨.io, "Metadata error: " ++ e⟩ := by
        simp [get_metadata, hs, Except.mapError]
      rw [hL]
      constructor
      · intro h12
        injection h12 with h12
        have h13 := congrArg CError.msg h12
        rw [string_append_cancel_left h13]
      · intro h12
        injection h12 with h12
        rw [h12]
    · simp [get_metadata, hs, Except.mapError]

end CargoOpen
